import Mathlib

/-!
# Verification of the homeyease inbound message pipeline

Shallow embedding of the core of the `prerana1821/homeyease` repository:
the webhook dedup cache, the idempotency recorder, the onboarding state
machine (both implementations), the layered intent classifier, the outbound
Twilio sender retry loop, the OpenAI classification retry loop, and the
recommendation preference filter.

Texts are modelled as `List Char`.  Python string operations (`lower`,
`strip`, slicing, `in`, `replace`, `split`) are embedded as executable
functions on `List Char`.  The regular expressions used by the intent
classifier only use literals, alternation of literals, optional literals,
`.*`, `\s+` and `\b`, so they are embedded as token lists interpreted by a
small backtracking matcher with `re.search` semantics (case-insensitivity is
modelled by lowering both the text and the, already lowercase, patterns).
-/

namespace Homeyease

/-! ## Python string primitives -/

/-- ASCII lowering of one character, embedding CPython `str.lower` on the
ASCII inputs this code path deals with. -/
def pyLowerChar (c : Char) : Char :=
  if 'A' ≤ c ∧ c ≤ 'Z' then Char.ofNat (c.toNat + 32) else c

/-- `s.lower()` on a character list. -/
def pyLower (s : List Char) : List Char := s.map pyLowerChar

/-- Python `str` whitespace (`\s` of `re`, and `str.split()` separators). -/
def isPyWS (c : Char) : Bool :=
  c = ' ' || c = '\t' || c = '\n' || c = '\r' || c = '\x0b' || c = '\x0c'

/-- `s.strip()`. -/
def pyStrip (s : List Char) : List Char :=
  (s.dropWhile (fun c => isPyWS c)).reverse.dropWhile (fun c => isPyWS c)
    |>.reverse

/-- Does `cs` start with `pre`? -/
def startsWithL : List Char → List Char → Bool
  | [], _ => true
  | _ :: _, [] => false
  | p :: ps, c :: cs => p = c && startsWithL ps cs

/-- Python `needle in haystack` (substring containment). -/
def containsSub (needle haystack : List Char) : Bool :=
  if startsWithL needle haystack then true
  else
    match haystack with
    | [] => false
    | _ :: rest => containsSub needle rest

/-- Python `\w` word character (ASCII fragment). -/
def isWordChar (c : Char) : Bool := c.isAlphanum || c = '_'

/-- `s.replace(old, new)` for single-character `old`/`new`. -/
def replaceChar (old new : Char) (s : List Char) : List Char :=
  s.map (fun c => if c = old then new else c)

/-- Split `cs` on maximal runs of separator characters, keeping the (possibly
empty) chunks at both boundaries — the semantics of `re.split(r"[sep]+", s)`.
-/
def splitRuns (isSep : Char → Bool) : List Char → List (List Char)
  | [] => [[]]
  | c :: cs =>
    if isSep c then
      if (match cs with | c' :: _ => isSep c' | [] => false) then
        splitRuns isSep cs
      else
        [] :: splitRuns isSep cs
    else
      match splitRuns isSep cs with
      | [] => [[c]]
      | chunk :: chunks => (c :: chunk) :: chunks

/-- Separator used by `re.split(r"[,\s]+", body)` in
`UserService.process_onboarding_step`. -/
def isCommaWS (c : Char) : Bool := c = ',' || isPyWS c

/-- `str.split()` (no argument): split on whitespace runs, dropping empty
chunks. -/
def pySplitWS (s : List Char) : List (List Char) :=
  (splitRuns isPyWS s).filter (fun chunk => !chunk.isEmpty)

/-- The apostrophe character (kept out of string literals). -/
def apos : Char := Char.ofNat 39

/-- ASCII upper-casing of one character (`str.upper`). -/
def pyUpperChar (c : Char) : Char :=
  if 'a' ≤ c ∧ c ≤ 'z' then Char.ofNat (c.toNat - 32) else c

/-- `s.upper()` on a character list. -/
def pyUpper (s : List Char) : List Char := s.map pyUpperChar

/-! ## Regular-expression fragment used by `IntentClassifier`

The intent patterns in `app/services/intent_classifier.py` only use literal
runs, alternation of literals, an optional literal, `.*`, `\s+` and `\b`.
A pattern is a list of tokens; `matchFrom` matches a prefix of the text
with full backtracking, and `searchFrom` scans every start position
(`re.search`). -/

inductive RTok
  | lit (s : List Char)
  | alts (ss : List (List Char))
  | opt (s : List Char)
  | star
  | wsPlus
  | wordB
deriving Repr

/-- Previous-character tracker after consuming the literal `s`. -/
def lastChar (s : List Char) (prev : Option Char) : Option Char :=
  match s.getLast? with
  | some c => some c
  | none => prev

/-- Is the optional character a `\w` character (`none` = string boundary)? -/
def isWordOpt : Option Char → Bool
  | none => false
  | some c => isWordChar c

/-- Backtracking matcher: does `toks` match some prefix of `cs`?  `prev` is
the character immediately before `cs` in the full text (for `\b`).  `.`
does not match a newline (the source compiles without `re.DOTALL`).

The recursion is structural on an explicit `fuel` so that the kernel can
evaluate concrete matches; every recursive call strictly decreases
`cs.length + toks.length`, so a fuel above that measure (as supplied by
`matchFrom`) is never exhausted — see `matchFromF_stable`. -/
def matchFromF : Nat → Option Char → List RTok → List Char → Bool
  | 0, _, _, _ => false
  | fuel + 1, prev, toks, cs =>
    match toks with
    | [] => true
    | .lit s :: rest =>
      startsWithL s cs &&
        matchFromF fuel (lastChar s prev) rest (cs.drop s.length)
    | .alts ss :: rest =>
      ss.any fun s =>
        startsWithL s cs &&
          matchFromF fuel (lastChar s prev) rest (cs.drop s.length)
    | .opt s :: rest =>
      matchFromF fuel prev rest cs ||
        (startsWithL s cs &&
          matchFromF fuel (lastChar s prev) rest (cs.drop s.length))
    | .star :: rest =>
      matchFromF fuel prev rest cs ||
        (match cs with
         | [] => false
         | c :: cs' => c != '\n' && matchFromF fuel (some c) (.star :: rest) cs')
    | .wsPlus :: rest =>
      (match cs with
       | [] => false
       | c :: cs' =>
         isPyWS c &&
           (matchFromF fuel (some c) rest cs' ||
             matchFromF fuel (some c) (.wsPlus :: rest) cs'))
    | .wordB :: rest =>
      (isWordOpt prev != isWordOpt cs.head?) && matchFromF fuel prev rest cs

/-- The matcher at its adequate fuel. -/
def matchFrom (prev : Option Char) (toks : List RTok) (cs : List Char) :
    Bool :=
  matchFromF (cs.length + toks.length + 1) prev toks cs

/-- `re.search` over every start position of `cs`. -/
def searchFrom (prev : Option Char) (toks : List RTok) (cs : List Char) :
    Bool :=
  matchFrom prev toks cs ||
    (match cs with
     | [] => false
     | c :: cs' => searchFrom (some c) toks cs')

/-- `pattern.search(text)` where the pattern was compiled with
`re.IGNORECASE`: all source patterns are lowercase, so searching the
lowered text is equivalent. -/
def rsearch (toks : List RTok) (text : List Char) : Bool :=
  searchFrom none toks (pyLower text)

/-- Shorthand for a literal token. -/
def litS (s : String) : RTok := RTok.lit s.data

/-- Shorthand for an alternation of string literals. -/
def altS (ss : List String) : RTok := RTok.alts (ss.map String.data)

/-- Shorthand for an optional literal. -/
def optS (s : String) : RTok := RTok.opt s.data

/-! ## `IntentClassifier` rule tables (source order) -/

/-- `IntentClassifier.intent_keywords`, compiled in dict order into
`self._compiled_patterns`; each regex is translated token by token. -/
def compiledPatterns : List (String × List RTok) :=
  [ ("RECIPE_REQUEST", [litS "recipe for"]),
    ("RECIPE_REQUEST", [litS "how to make"]),
    ("RECIPE_REQUEST", [litS "how do i cook"]),
    ("RECIPE_REQUEST", [litS "how to prepare"]),
    ("RECIPE_REQUEST", [litS "cooking method"]),
    ("RECIPE_REQUEST", [litS "cooking steps"]),
    ("RECIPE_REQUEST", [litS "preparation steps"]),
    ("RECIPE_REQUEST", [litS "ingredients needed for"]),
    ("RECIPE_REQUEST", [litS "cooking time for"]),
    ("RECIPE_REQUEST", [litS "cooking instructions for"]),
    ("PANTRY_HELP", [litS "what can i make with"]),
    ("PANTRY_HELP", [litS "using these ingredients"]),
    ("PANTRY_HELP", [litS "i have ", RTok.star, litS " what can i"]),
    ("PANTRY_HELP", [litS "use up these"]),
    ("PANTRY_HELP", [litS "leftover ", RTok.star, litS " what to"]),
    ("PANTRY_HELP", [litS "ingredients at home"]),
    ("PANTRY_HELP", [litS "with what i have"]),
    ("PANTRY_HELP", [litS "from my pantry"]),
    ("PANTRY_HELP", [litS "available ingredients ", RTok.star, litS " make"]),
    ("DIETARY_QUERY", [litS "vegan option"]),
    ("DIETARY_QUERY", [litS "vegetarian option"]),
    ("DIETARY_QUERY", [litS "gluten free"]),
    ("DIETARY_QUERY", [litS "dairy free"]),
    ("DIETARY_QUERY", [litS "low carb"]),
    ("DIETARY_QUERY", [litS "keto friendly"]),
    ("DIETARY_QUERY", [litS "healthy option"]),
    ("DIETARY_QUERY", [litS "diet food"]),
    ("DIETARY_QUERY", [litS "low calorie"]),
    ("DIETARY_QUERY", [litS "sugar free"]),
    ("DIETARY_QUERY", [litS "allergy free"]),
    ("DIETARY_QUERY", [litS "without dairy"]),
    ("DIETARY_QUERY", [litS "substitute for"]),
    ("DIETARY_QUERY", [litS "avoid ", RTok.star, litS " because"]),
    ("PLANWEEK", [litS "plan my week"]),
    ("PLANWEEK", [litS "weekly plan"]),
    ("PLANWEEK", [litS "meal plan"]),
    ("PLANWEEK", [litS "weekly meal plan"]),
    ("PLANWEEK", [litS "plan meals for week"]),
    ("PLANWEEK", [litS "7 day plan"]),
    ("PLANWEEK", [litS "weekly menu"]),
    ("PLANWEEK", [litS "meal planning"]),
    ("UPLOAD_IMAGE", [litS "send photo"]),
    ("UPLOAD_IMAGE", [litS "upload image"]),
    ("UPLOAD_IMAGE", [litS "picture of food"]),
    ("UPLOAD_IMAGE", [litS "food photo"]),
    ("UPLOAD_IMAGE", [litS "recognize this"]),
    ("UPLOAD_IMAGE", [litS "identify this"]),
    ("UPLOAD_IMAGE", [litS "scan this"]),
    ("UPLOAD_IMAGE", [litS "check this image"]),
    ("UPLOAD_IMAGE",
      [litS "what", RTok.alts [[apos, 's'], ['s'], [' ', 'i', 's']],
        litS " in this ", altS ["picture", "photo", "image"]]),
    ("UPLOAD_IMAGE", [litS "analyze photo"]),
    ("MOOD", [litS "in the mood for"]),
    ("MOOD", [litS "craving"]),
    ("MOOD", [litS "fancy something"]),
    ("MOOD", [litS "feel like eating"]),
    ("MOOD", [litS "want something spicy"]),
    ("MOOD", [litS "want something sweet"]),
    ("MOOD", [litS "comfort food"]),
    ("MOOD", [litS "something filling"]),
    ("MOOD", [litS "something light"]),
    ("MOOD", [litS "dying for"]),
    ("WHATSDINNER", [litS "what should i eat"]),
    ("WHATSDINNER", [litS "meal suggestion"]),
    ("WHATSDINNER", [litS "suggest ", optS "a ", litS "meal"]),
    ("WHATSDINNER", [litS "dinner ideas"]),
    ("WHATSDINNER", [litS "food suggestions"]),
    ("WHATSDINNER", [litS "what should i cook"]),
    ("WHATSDINNER", [litS "suggest something to eat"]),
    ("WHATSDINNER",
      [litS "what ", optS "for ", altS ["dinner", "lunch", "breakfast"]]),
    ("WHATSDINNER", [litS "cook something"]),
    ("WHATSDINNER", [litS "make something to eat"]),
    ("WHATSDINNER", [litS "cooking inspiration"]),
    ("ONBOARDING", [litS "getting started"]),
    ("ONBOARDING", [litS "how to use"]),
    ("ONBOARDING", [litS "setup preferences"]),
    ("ONBOARDING", [litS "configure profile"]),
    ("ONBOARDING", [litS "reset preferences"]),
    ("ONBOARDING", [litS "change settings"]),
    ("ONBOARDING", [litS "update profile"]),
    ("ONBOARDING", [litS "help me start"]),
    ("ONBOARDING", [litS "how does this work"]) ]

/-- `IntentClassifier._fuzzy_patterns` (plain substring checks). -/
def fuzzyPatterns : List (String × List (List Char)) :=
  [ ("WHATSDINNER",
      ["wat to eat".data, "wat should i eat".data, "food suggest".data,
        "meal suggest".data, "wat to cook".data, "wat for dinner".data]),
    ("MOOD",
      ["want spicy".data, "want sweet".data, "craving spic".data,
        "want hot food".data, "feel like eating".data]),
    ("PLANWEEK",
      ["plan week".data, "week plan".data, "meal plan week".data,
        "weekly food".data]) ]

/-- The compiled Hinglish regexes (`self._hinglish_patterns`), in source
order. -/
def hinglishPatterns : List (String × List RTok) :=
  [ ("WHATSDINNER",
      [RTok.wordB, altS ["aaj", "aj"], RTok.wsPlus, litS "kya", RTok.wsPlus,
        altS ["banau", "banao", "pakau", "pakao", "khana"], RTok.wordB]),
    ("WHATSDINNER",
      [RTok.wordB, litS "kya", RTok.wsPlus,
        altS ["banau", "banao", "pakau", "pakao", "khana"], RTok.wordB]),
    ("WHATSDINNER",
      [RTok.wordB, altS ["khane", "khaane"], RTok.wsPlus, altS ["mein", "me"],
        RTok.wsPlus, litS "kya", RTok.wordB]),
    ("WHATSDINNER",
      [RTok.wordB, litS "kuch", RTok.wsPlus,
        altS ["suggest", "bata", "batao", "karo"], RTok.wordB]),
    ("PANTRY_HELP",
      [RTok.wordB, litS "mere", RTok.wsPlus, litS "paas", RTok.wsPlus,
        RTok.star, RTok.wsPlus, altS ["hai", "he"], RTok.wsPlus, RTok.star,
        RTok.wsPlus, litS "kya", RTok.wsPlus, altS ["bana", "banau", "banao"],
        RTok.wordB]),
    ("PANTRY_HELP",
      [RTok.wordB, litS "yeh", RTok.wsPlus, litS "ingredients", RTok.wsPlus,
        litS "se", RTok.wsPlus, litS "kya", RTok.wsPlus,
        altS ["bana", "banau", "banao"], RTok.wordB]),
    ("RECIPE_REQUEST",
      [RTok.wordB, altS ["kaise", "kaise"], RTok.wsPlus,
        altS ["banate", "banaye", "banau", "banaate"], RTok.wordB]),
    ("RECIPE_REQUEST",
      [RTok.wordB, litS "recipe", RTok.wsPlus, altS ["batao", "bata"],
        RTok.wordB]) ]

/-- First pattern of a rule table whose regex matches the text. -/
def firstMatch (pats : List (String × List RTok)) (text : List Char) :
    Option String :=
  match pats with
  | [] => none
  | (intent, toks) :: rest =>
    if rsearch toks text then some intent else firstMatch rest text

/-- `IntentClassifier._pattern_match` (iterates `self._compiled_patterns`). -/
def patternMatch (text : List Char) : Option String :=
  firstMatch compiledPatterns text

/-- `IntentClassifier._precise_keyword_match` (iterates the same
`self._compiled_patterns` list). -/
def preciseKeywordMatch (text : List Char) : Option String :=
  firstMatch compiledPatterns text

/-- `IntentClassifier._hinglish_pattern_match`. -/
def hinglishPatternMatch (text : List Char) : Option String :=
  firstMatch hinglishPatterns text

/-- `IntentClassifier._fuzzy_keyword_match` (receives the lowered text). -/
def fuzzyKeywordMatch (textLower : List Char) : Option String :=
  go fuzzyPatterns
where
  go : List (String × List (List Char)) → Option String
    | [] => none
    | (intent, ps) :: rest =>
      if ps.any (fun p => containsSub p textLower) then some intent
      else go rest

/-- Keywords of the first branch of `IntentClassifier._simple_fallback`. -/
def fallbackRecipeKws : List (List Char) :=
  ["recipe".data, "how to".data, "cook".data, "make".data]

/-- Keywords of the second branch of `_simple_fallback`. -/
def fallbackDinnerKws : List (List Char) :=
  ["what".data ++ [apos] ++ "s for dinner".data, "what for dinner".data,
    "what to eat".data, "what should i eat".data, "what should i cook".data]

/-- Keywords of the third branch of `_simple_fallback`. -/
def fallbackPantryKws : List (List Char) :=
  ["i have".data, "leftover".data, "in my pantry".data, "ingredients".data]

/-- Keywords of the fourth branch of `_simple_fallback`. -/
def fallbackPlanKws : List (List Char) :=
  ["weekly".data, "plan my week".data, "meal plan".data, "plan week".data]

/-- `IntentClassifier._simple_fallback` (receives the lowered text). -/
def simpleFallback (textLower : List Char) : String :=
  if fallbackRecipeKws.any (fun w => containsSub w textLower) then
    "RECIPE_REQUEST"
  else if fallbackDinnerKws.any (fun w => containsSub w textLower) then
    "WHATSDINNER"
  else if fallbackPantryKws.any (fun w => containsSub w textLower) then
    "PANTRY_HELP"
  else if fallbackPlanKws.any (fun w => containsSub w textLower) then
    "PLANWEEK"
  else "OTHER"

/-! ## The OpenAI fallback (`IntentClassifier._classify_with_openai`)

The provider is modelled as a function from the (1-based) attempt index to
the outcome of that attempt.  A parsed-but-empty content raises
`OpenAIError("empty_content")` in the source and is therefore transient. -/

inductive OpenAIOutcome
  | content (s : List Char)
  | emptyContent
  | authError
  | rateLimited
  | openaiErr
  | otherExc
deriving Repr, DecidableEq

/-- Is the outcome handled by one of the retrying `except` arms
(`RateLimitError`, `OpenAIError` — including the raised `empty_content` —
or a generic `Exception`)? -/
def OpenAIOutcome.transient : OpenAIOutcome → Bool
  | .content _ => false
  | .authError => false
  | _ => true

/-- The closed intent label set validated against the model reply (the
`valid` set in `_classify_with_openai`, also the classifier's output
alphabet). -/
def validIntents : List String :=
  ["WHATSDINNER", "PLANWEEK", "UPLOAD_IMAGE", "MOOD", "RECIPE_REQUEST",
    "PANTRY_HELP", "DIETARY_QUERY", "ONBOARDING", "OTHER"]

/-- Result of the OpenAI retry loop: the returned intent (`None` on
failure), how many attempts ran, and the backoff sleeps in order. -/
structure OpenAIResult where
  intent : Option String
  attemptsMade : Nat
  sleeps : List ℚ
deriving Repr, DecidableEq

/-- The `for attempt in range(1, max_attempts + 1)` loop of
`_classify_with_openai`:
* a parsed content is stripped, upper-cased and validated (unknown replies
  coerce to `"OTHER"`) and returned at once;
* `AuthenticationError` returns `None` immediately, with no sleep;
* a transient error sleeps `backoff * attempt` and retries while
  `attempt < max_attempts`, else returns `None`. -/
def openaiGo (outcomes : Nat → OpenAIOutcome) (maxAttempts : Nat)
    (backoff : ℚ) (attempt : Nat) : (fuel : Nat) → OpenAIResult
  | 0 => ⟨none, attempt - 1, []⟩
  | fuel + 1 =>
    match outcomes attempt with
    | .content s =>
      let cand := String.mk (pyUpper (pyStrip s))
      let intent := if validIntents.contains cand then cand else "OTHER"
      ⟨some intent, attempt, []⟩
    | .authError => ⟨none, attempt, []⟩
    | _ =>
      if attempt < maxAttempts then
        let r := openaiGo outcomes maxAttempts backoff (attempt + 1) fuel
        ⟨r.intent, r.attemptsMade, backoff * attempt :: r.sleeps⟩
      else ⟨none, attempt, []⟩

/-- `_classify_with_openai`: `max_attempts = 3`, `backoff = 0.8`. -/
def classifyWithOpenai (outcomes : Nat → OpenAIOutcome) : OpenAIResult :=
  openaiGo outcomes 3 (4 / 5) 1 3

/-- `IntentClassifier.classify_intent` (non-verbose return value).  The
optional `llm` argument is the configured `openai_client`, modelled by the
outcomes its successive attempts would produce; `none` embeds
`self.openai_client is None`. -/
def classifyIntent (llm : Option (Nat → OpenAIOutcome)) (text : List Char) :
    String :=
  let t := pyStrip text
  let tl := pyLower t
  match patternMatch t with
  | some r => r
  | none =>
    match preciseKeywordMatch t with
    | some r => r
    | none =>
      match hinglishPatternMatch t with
      | some r => r
      | none =>
        match fuzzyKeywordMatch tl with
        | some r => r
        | none =>
          match llm with
          | some outcomes =>
            match (classifyWithOpenai outcomes).intent with
            | some r => r
            | none => simpleFallback tl
          | none => simpleFallback tl

/-! ## `InMemoryDeduper` (`app/api/twilio_webhook.py`)

A fixed-capacity FIFO: a deque of keys in insertion order (front = oldest)
plus a set for membership. -/

structure Deduper where
  maxEntries : Nat
  queue : List String
  sset : Finset String
deriving DecidableEq

/-- `InMemoryDeduper.__init__`. -/
def Deduper.init (maxEntries : Nat) : Deduper := ⟨maxEntries, [], ∅⟩

/-- `InMemoryDeduper.add`: returns the updated state and the boolean result
(`True` iff the key was newly added). -/
def Deduper.add (d : Deduper) (key : String) : Deduper × Bool :=
  if key ∈ d.sset then (d, false)
  else
    let q := d.queue ++ [key]
    let s := insert key d.sset
    if d.maxEntries < q.length then
      match q with
      | [] => (⟨d.maxEntries, [], s⟩, true)
      | old :: rest => (⟨d.maxEntries, rest, s.erase old⟩, true)
    else (⟨d.maxEntries, q, s⟩, true)

/-- `InMemoryDeduper.contains`. -/
def Deduper.contains (d : Deduper) (key : String) : Bool :=
  key ∈ d.sset

/-- States reachable from a freshly constructed deduper by `add` calls
(`contains` and `count` do not mutate). -/
inductive Deduper.Reach : Deduper → Prop
  | init (n : Nat) : Deduper.Reach (Deduper.init n)
  | step (d : Deduper) (k : String) :
      Deduper.Reach d → Deduper.Reach (d.add k).1

/-! ## Idempotency recorder (`UserService`, `app/services/user_service.py`)

`incoming_messages` is modelled as a list of rows with a database-side
uniqueness constraint on `message_sid` (spec §6: `incoming_messages`
unique on `message_id`): an insert of an existing sid raises, which
`record_incoming_message` catches by selecting the existing row. -/

structure IncomingRow where
  messageSid : String
  userId : Option Nat
  fromPhone : String
  processed : Bool
  createdAt : String
  processedAt : Option String
deriving DecidableEq, Repr

/-- What `_parse_supabase_response` saw: a row freshly inserted (the SDK
returns a list, so the webhook's `isinstance(existing_row, dict)` check is
false) or a row fetched by the conflict-fallback select (a single dict). -/
inductive RecData
  | inserted (r : IncomingRow)
  | fetched (r : IncomingRow)
deriving DecidableEq, Repr

/-- Normalized result of `record_incoming_message`. -/
structure RecResult where
  ok : Bool
  data : Option RecData
deriving DecidableEq, Repr

/-- `UserService.record_incoming_message`: try the insert; on the
uniqueness conflict select and return the existing row instead of
failing. -/
def recordIncomingMessage (db : List IncomingRow) (sid : String)
    (uid : Option Nat) (frm : String) (now : String) :
    List IncomingRow × RecResult :=
  match db.find? (fun r => r.messageSid == sid) with
  | some existing => (db, ⟨true, some (.fetched existing)⟩)
  | none =>
    let row : IncomingRow := ⟨sid, uid, frm, false, now, none⟩
    (db ++ [row], ⟨true, some (.inserted row)⟩)

/-- `UserService.mark_incoming_processed`: set `processed`/`processed_at`
on every row whose `message_sid` matches. -/
def markIncomingProcessed (db : List IncomingRow) (sid : String)
    (now : String) : List IncomingRow × Bool :=
  (db.map fun r =>
    if r.messageSid == sid then
      { r with processed := true, processedAt := some now }
    else r, true)

/-- Number of rows stored under a sid. -/
def countSid (db : List IncomingRow) (sid : String) : Nat :=
  (db.filter (fun r => r.messageSid == sid)).length

/-- The stored `processed` flag of a sid (`false` when no row exists). -/
def getProcessed (db : List IncomingRow) (sid : String) : Bool :=
  match db.find? (fun r => r.messageSid == sid) with
  | some r => r.processed
  | none => false

/-- One `record_incoming_message` call's arguments. -/
structure RecCall where
  sid : String
  uid : Option Nat
  frm : String
  now : String

/-- Replay a sequence of `record_incoming_message` calls. -/
def applyRecCalls (db : List IncomingRow) : List RecCall → List IncomingRow
  | [] => db
  | c :: rest =>
    applyRecCalls (recordIncomingMessage db c.sid c.uid c.frm c.now).1 rest

/-- The `handle_whatsapp_webhook` steps from recording the incoming row to
marking it processed (`app/api/twilio_webhook.py`, non-debug path; the
in-memory dedup fast path before this segment replies with the same
acknowledgment without touching `processed`).  `handlerOk` is whether
`message_handler.process_webhook` returned instead of raising.  Returns
the new DB and whether the TwiML acknowledgment was returned. -/
def webhookProcess (db : List IncomingRow) (sid : String) (uid : Option Nat)
    (phone : String) (now : String) (handlerOk : Bool) :
    List IncomingRow × Bool :=
  let step1 := recordIncomingMessage db sid uid phone now
  let db1 := step1.1
  let recRes := step1.2
  -- `rec.get("created")` is never set by `record_incoming_message`, so on
  -- every ok result the webhook inspects the existing row's processed flag;
  -- only a fetched dict row can short-circuit.
  let processedFlag :=
    match recRes.data with
    | some (.fetched r) => r.processed
    | _ => false
  if recRes.ok && processedFlag then (db1, true)
  else if handlerOk then ((markIncomingProcessed db1 sid now).1, true)
  else (db1, true)

/-! ## Onboarding state machine

Two implementations exist in the source:
`OnboardingService._handle_name/.../_handle_household`
(`app/services/onboarding_service.py`) and the convenience orchestration
`UserService.process_onboarding_step` (`app/services/user_service.py`).
Each step issues one `update_user_fields` call whose patch carries the new
field value together with the next onboarding step; a patch is modelled as
the list of fields of that single update. -/

/-- `STEP_NAME` of `onboarding_service.py`. -/
def STEP_NAME : Nat := 0
/-- `STEP_DIET`. -/
def STEP_DIET : Nat := 1
/-- `STEP_CUISINE`. -/
def STEP_CUISINE : Nat := 2
/-- `STEP_ALLERGIES`. -/
def STEP_ALLERGIES : Nat := 3
/-- `STEP_HOUSEHOLD`. -/
def STEP_HOUSEHOLD : Nat := 4

/-- One field of a `users`-table update patch (the stored
`onboarding_step` is `Option Nat`, `none` meaning complete). -/
inductive PatchField
  | name (v : String)
  | diet (v : String)
  | cuisinePref (v : String)
  | allergies (v : List String)
  | householdSize (v : String)
  | onboardingStep (v : Option Nat)
deriving DecidableEq, Repr

/-- `UserService.update_user_name_and_onboarding_step`: the single patch it
sends through `update_user_fields`. -/
def updateUserNameAndOnboardingStep (name : String) (step : Nat) :
    List PatchField :=
  [.name name, .onboardingStep (some step)]

/-- `UserService.update_user_diet_and_onboarding_step`. -/
def updateUserDietAndOnboardingStep (diet : String) (step : Nat) :
    List PatchField :=
  [.diet diet, .onboardingStep (some step)]

/-- `UserService.update_user_cuisine_and_onboarding_step`. -/
def updateUserCuisineAndOnboardingStep (cuisine : String) (step : Nat) :
    List PatchField :=
  [.cuisinePref cuisine, .onboardingStep (some step)]

/-- `UserService.update_user_allergies_and_onboarding_step`. -/
def updateUserAllergiesAndOnboardingStep (allergies : List String)
    (step : Nat) : List PatchField :=
  [.allergies allergies, .onboardingStep (some step)]

/-- `UserService.update_user_household_and_complete_onboarding` (sets
`onboarding_step = None`). -/
def updateUserHouseholdAndCompleteOnboarding (household : String) :
    List PatchField :=
  [.householdSize household, .onboardingStep none]

/-- The diet mapping of `OnboardingService._handle_diet`. -/
def dietMapping : List (String × String) :=
  [("1", "veg"), ("2", "non-veg"), ("3", "both"),
   ("veg", "veg"), ("non-veg", "non-veg"), ("both", "both")]

/-- `_handle_diet`: `mapping.get(body.lower(), "both")`. -/
def onbDietValue (body : List Char) : String :=
  (dietMapping.lookup (String.mk (pyLower body))).getD "both"

/-- `_handle_name`'s stored name (for non-empty bodies). -/
def onbNameValue (body : List Char) : String :=
  if String.mk (pyLower body) = "skip" then "Guest"
  else String.mk (body.take 64)

/-- The numeric cuisine mapping of `_handle_cuisine` (dict comprehension
over the ordered cuisine list). -/
def cuisineMapping : List (String × String) :=
  [("1", "north_indian"), ("2", "south_indian"), ("3", "chinese"),
   ("4", "italian"), ("5", "punjabi"), ("6", "gujarati"), ("7", "bengali"),
   ("8", "international"), ("9", "surprise")]

/-- `_handle_cuisine`:
`mapping.get(body) or (body.lower().replace(" ", "_") if body else
"surprise")`. -/
def onbCuisineValue (body : List Char) : String :=
  match cuisineMapping.lookup (String.mk body) with
  | some v => v
  | none =>
    if body ≠ [] then String.mk (replaceChar ' ' '_' (pyLower body))
    else "surprise"

/-- The numeric allergy mapping shared by both implementations. -/
def allergyMapping : List (String × String) :=
  [("2", "dairy"), ("3", "eggs"), ("4", "peanut"), ("5", "tree_nuts"),
   ("6", "wheat_gluten"), ("7", "soy"), ("8", "fish"), ("9", "shellfish")]

/-- `not body or body.strip() == "1" or "none" in body.lower()` — the
no-allergies condition of both implementations. -/
def noAllergiesCond (body : List Char) : Bool :=
  body.isEmpty || pyStrip body == "1".data ||
    containsSub "none".data (pyLower body)

/-- `mapping.get(p, p.lower())` applied to one allergy token. -/
def mapAllergy (p : List Char) : String :=
  (allergyMapping.lookup (String.mk p)).getD (String.mk (pyLower p))

/-- `_handle_allergies` token split:
`[p.strip() for p in body.replace(",", " ").split() if p.strip()]`. -/
def onbAllergyParts (body : List Char) : List (List Char) :=
  ((pySplitWS (replaceChar ',' ' ' body)).map pyStrip).filter
    (fun p => !p.isEmpty)

/-- `_handle_allergies`' stored allergy list. -/
def onbAllergiesValue (body : List Char) : List String :=
  if noAllergiesCond body then [] else (onbAllergyParts body).map mapAllergy

/-- The household mapping shared by both implementations. -/
def householdMapping : List (String × String) :=
  [("1", "single"), ("2", "couple"), ("3", "small_family"),
   ("4", "big_family"), ("5", "shared")]

/-- `_handle_household`:
`mapping.get(body) or (body.lower().replace(" ", "_") if body else
"single")`. -/
def onbHouseholdValue (body : List Char) : String :=
  match householdMapping.lookup (String.mk body) with
  | some v => v
  | none =>
    if body ≠ [] then String.mk (replaceChar ' ' '_' (pyLower body))
    else "single"

/-- The update patch issued by the `OnboardingService` step handlers for a
user at `step` on (already extracted and stripped) `body`; `none` when no
update is issued (`_handle_name` re-asks on an empty body, and a complete
user gets no update). -/
def onbStep (step : Nat) (body : List Char) : Option (List PatchField) :=
  match step with
  | 0 =>
    if body = [] then none
    else some (updateUserNameAndOnboardingStep (onbNameValue body) STEP_DIET)
  | 1 => some (updateUserDietAndOnboardingStep (onbDietValue body) STEP_CUISINE)
  | 2 =>
    some (updateUserCuisineAndOnboardingStep (onbCuisineValue body)
      STEP_ALLERGIES)
  | 3 =>
    some (updateUserAllergiesAndOnboardingStep (onbAllergiesValue body)
      STEP_HOUSEHOLD)
  | 4 =>
    some (updateUserHouseholdAndCompleteOnboarding (onbHouseholdValue body))
  | _ => none

/-- `process_onboarding_step` step 0:
`"Guest" if body.lower() == "skip" else (body[:64] or "Guest")`. -/
def usNameValue (body : List Char) : String :=
  if String.mk (pyLower body) = "skip" then "Guest"
  else if body.take 64 = [] then "Guest"
  else String.mk (body.take 64)

/-- The numeric-only diet mapping of `process_onboarding_step` step 1. -/
def usDietMapping : List (String × String) :=
  [("1", "veg"), ("2", "non-veg"), ("3", "both")]

/-- `mapping.get(body.lower(), body.lower() if body else "both")`. -/
def usDietValue (body : List Char) : String :=
  (usDietMapping.lookup (String.mk (pyLower body))).getD
    (if body ≠ [] then String.mk (pyLower body) else "both")

/-- `process_onboarding_step` step 2:
`(body or "").lower().replace(" ", "_") if body else "surprise"`. -/
def usCuisineValue (body : List Char) : String :=
  if body ≠ [] then String.mk (replaceChar ' ' '_' (pyLower body))
  else "surprise"

/-- `process_onboarding_step` step 3 token split:
`[p.strip() for p in re.split(r"[,\s]+", body) if p.strip()]`. -/
def usAllergyParts (body : List Char) : List (List Char) :=
  ((splitRuns isCommaWS body).map pyStrip).filter (fun p => !p.isEmpty)

/-- `process_onboarding_step` step 3 stored allergy list. -/
def usAllergiesValue (body : List Char) : List String :=
  if noAllergiesCond body then [] else (usAllergyParts body).map mapAllergy

/-- `process_onboarding_step` step 4:
`mapping.get(body.lower(), body.lower().replace(" ", "_") if body else
"single")`. -/
def usHouseholdValue (body : List Char) : String :=
  (householdMapping.lookup (String.mk (pyLower body))).getD
    (if body ≠ [] then String.mk (replaceChar ' ' '_' (pyLower body))
     else "single")

/-- The update patch issued by `UserService.process_onboarding_step` for a
user at `step` on `body` (an unexpected step resets `onboarding_step` to
0). -/
def usStep (step : Nat) (body : List Char) : List PatchField :=
  match step with
  | 0 => updateUserNameAndOnboardingStep (usNameValue body) 1
  | 1 => updateUserDietAndOnboardingStep (usDietValue body) 2
  | 2 => updateUserCuisineAndOnboardingStep (usCuisineValue body) 3
  | 3 => updateUserAllergiesAndOnboardingStep (usAllergiesValue body) 4
  | 4 => updateUserHouseholdAndCompleteOnboarding (usHouseholdValue body)
  | _ => [.onboardingStep (some 0)]

/-- The internal invariant of `InMemoryDeduper`: the queue has no
duplicates, the set mirrors the queue, and the queue never exceeds the
capacity. -/
def DeduperInv (d : Deduper) : Prop :=
  d.queue.Nodup ∧ (∀ k, k ∈ d.sset ↔ k ∈ d.queue) ∧
    d.queue.length ≤ d.maxEntries

/-- At most one row per sid. -/
def AtMostOne (db : List IncomingRow) : Prop :=
  ∀ s, countSid db s ≤ 1

/-- The refinement property claimed between the two implementations: at
each active step the same single update (same field value, same next step)
is issued. -/
def OnboardingEquivAt (step : Nat) (body : List Char) : Prop :=
  onbStep step body = some (usStep step body)

/-! ## Outbound sender (`TwilioClient.send_whatsapp_message`) -/

/-- What one `self._client.messages.create` attempt does. -/
inductive SendOutcome
  | success (sid status : String)
  | restErr (code : Option Int) (msg : String)
  | twilioErr (msg : String)
  | otherErr (msg : String)
deriving DecidableEq, Repr

/-- `non_transient_codes = {21614, 63007}`. -/
def nonTransientCodes : List Int := [21614, 63007]

/-- Does the outcome fall through to the backoff-and-retry path? -/
def SendOutcome.transient : SendOutcome → Bool
  | .success _ _ => false
  | .restErr code _ =>
    match code with
    | some c => !nonTransientCodes.contains c
    | none => true
  | .twilioErr _ => true
  | .otherErr _ => true

/-- Result `meta` dict of `send_whatsapp_message` (the fields the claims
are about), plus the trace of backoff sleeps. -/
structure SendResult where
  ok : Bool
  attempts : Nat
  error : Option String
  lastError : Option String
  twilioSid : Option String
  sleeps : List ℚ
deriving DecidableEq, Repr

/-- The `for attempt in range(1, self.max_retries + 2)` loop.  `fuel` is
the number of loop iterations left; on exhaustion the result is the
`exhausted_retries` failure.  A transient failure sleeps
`retry_backoff * 2 ** (attempt - 1)` and retries; a non-transient Twilio
code returns the failure at once. -/
def sendLoop (provider : Nat → SendOutcome) (backoff : ℚ) :
    (attempt : Nat) → (lastExc : Option String) → (fuel : Nat) → SendResult
  | attempt, lastExc, 0 =>
    ⟨false, attempt - 1, some "exhausted_retries", lastExc, none, []⟩
  | attempt, _, fuel + 1 =>
    match provider attempt with
    | .success sid _ => ⟨true, attempt, none, none, some sid, []⟩
    | .restErr code msg =>
      if (match code with
          | some c => nonTransientCodes.contains c
          | none => false) then
        ⟨false, attempt, some msg, none, none, []⟩
      else
        let r := sendLoop provider backoff (attempt + 1) (some msg) fuel
        { r with sleeps := backoff * 2 ^ (attempt - 1) :: r.sleeps }
    | .twilioErr msg =>
      let r := sendLoop provider backoff (attempt + 1) (some msg) fuel
      { r with sleeps := backoff * 2 ^ (attempt - 1) :: r.sleeps }
    | .otherErr msg =>
      let r := sendLoop provider backoff (attempt + 1) (some msg) fuel
      { r with sleeps := backoff * 2 ^ (attempt - 1) :: r.sleeps }

/-- `TwilioClient.send_whatsapp_message` with a configured client:
`max_retries + 1` attempts starting at attempt 1. -/
def sendWhatsappMessage (provider : Nat → SendOutcome) (maxRetries : Nat)
    (backoff : ℚ) : SendResult :=
  sendLoop provider backoff 1 none (maxRetries + 1)

/-! ## Recommendation filter (`app/services/recommendation_service.py`) -/

/-- A catalog meal row (the fields `_apply_preferences_filter` and
`_format_single_meal` read; a missing string field is `""`). -/
structure Meal where
  name : String
  cuisine : String
  dietType : String
  diet : String
  ingredients : List String
  tags : List String
deriving DecidableEq, Repr

/-- `" ".join([str(x).lower() for x in xs])`. -/
def joinLower (xs : List String) : List Char :=
  List.intercalate " ".data (xs.map (fun x => pyLower x.data))

/-- `meal.get("diet_type") or meal.get("diet") or ""`, lowered. -/
def mealDietOf (m : Meal) : List Char :=
  pyLower (if m.dietType ≠ "" then m.dietType.data else m.diet.data)

/-- The `meal_allowed` predicate of `_apply_preferences_filter`; `diet`
and `allergies` are already normalized (lowered, `[]` = unset diet). -/
def mealAllowed (diet : List Char) (allergies : List (List Char))
    (m : Meal) : Bool :=
  let mealDiet := mealDietOf m
  if diet ≠ [] && (diet == "veg".data || diet == "vegetarian".data) &&
      mealDiet ≠ [] &&
      !(mealDiet == "veg".data || mealDiet == "vegetarian".data ||
        mealDiet == "plant-based".data) then
    false
  else
    allergies.all fun a =>
      !(!a.isEmpty &&
        (containsSub a (joinLower m.ingredients) ||
          containsSub a (joinLower m.tags)))

/-- User criteria as read from the user row (`""`/`[]` = unset). -/
structure Criteria where
  diet : String
  allergies : List String
deriving DecidableEq, Repr

/-- `RecommendationService._apply_preferences_filter`. -/
def applyPreferencesFilter (meals : List Meal) (c : Criteria) :
    List Meal :=
  meals.filter
    (mealAllowed (pyLower c.diet.data)
      (c.allergies.map (fun a => pyLower a.data)))

/-- `_format_single_meal` (the recommendation fields the claims are
about). -/
structure FormattedRec where
  name : String
  cuisine : String
  dietType : String
  ingredients : List String
  tags : List String
deriving DecidableEq, Repr

/-- `RecommendationService._format_single_meal`. -/
def formatSingleMeal (m : Meal) : FormattedRec :=
  ⟨m.name, m.cuisine, if m.dietType ≠ "" then m.dietType else m.diet,
    m.ingredients, m.tags⟩

/-- The fixed built-in suggestions of `_get_default_recommendations`. -/
def defaultMeals : List Meal :=
  [⟨"Dal Rice", "indian", "veg", "",
      ["dal", "rice", "turmeric", "cumin"], ["comfort", "healthy", "simple"]⟩,
   ⟨"Vegetable Stir Fry", "indo_chinese", "veg", "",
      ["mixed vegetables", "soy sauce", "garlic"],
      ["quick", "healthy", "colorful"]⟩,
   ⟨"Egg Curry", "indian", "non-veg", "",
      ["eggs", "onion", "tomato", "spices"],
      ["protein-rich", "comforting"]⟩]

/-- `_get_default_recommendations` (formatted like normal meals). -/
def defaultRecommendations : List FormattedRec :=
  defaultMeals.map formatSingleMeal

/-- The filtering tail of `_generate_recommendations_with_diag`: strict
pass, relaxed pass without allergies, DB-wide pass keeping only the diet,
truncation to `max_results`, formatting, and the built-in defaults when
everything else came up empty.  `recs` are the intent handler's
candidates and `dbAll` is what `meal_service.search_meals("", {})` would
return during the fallback (`[]` if it raises). -/
def generateRecommendations (recs dbAll : List Meal) (c : Criteria)
    (maxResults : Nat) : List FormattedRec :=
  let strict := applyPreferencesFilter recs c
  let recsFiltered :=
    if strict ≠ [] then strict
    else
      let relaxed := applyPreferencesFilter recs { c with allergies := [] }
      if relaxed ≠ [] then relaxed
      else applyPreferencesFilter dbAll ⟨c.diet, []⟩
  let formatted := (recsFiltered.take maxResults).map formatSingleMeal
  if formatted = [] then defaultRecommendations else formatted

/-! ## Helper lemmas -/

/-- Association lookup misses every key it is not among. -/
theorem lookup_eq_none_of_notMem (l : List (String × String)) (k : String)
    (h : k ∉ l.map Prod.fst) : l.lookup k = none := by
  induction l with
  | nil => rfl
  | cons p t ih =>
    simp only [List.map_cons, List.mem_cons] at h
    push_neg at h
    have hbeq : (k == p.1) = false := by
      simp only [beq_eq_false_iff_ne, ne_eq]
      exact h.1
    simp [List.lookup, hbeq, ih h.2]

/-- `firstMatch` only returns labels present in its table. -/
theorem firstMatch_mem (pats : List (String × List RTok)) (text : List Char)
    (r : String) (h : firstMatch pats text = some r) :
    r ∈ pats.map Prod.fst := by
  induction pats with
  | nil => simp [firstMatch] at h
  | cons p t ih =>
    simp only [firstMatch] at h
    split at h
    · simp only [Option.some.injEq] at h
      simp [← h]
    · simp only [List.map_cons, List.mem_cons]
      exact Or.inr (ih h)

/-- `_fuzzy_keyword_match` only returns labels present in its table. -/
theorem fuzzyGo_mem (pats : List (String × List (List Char)))
    (textLower : List Char) (r : String)
    (h : fuzzyKeywordMatch.go textLower pats = some r) :
    r ∈ pats.map Prod.fst := by
  induction pats with
  | nil => simp [fuzzyKeywordMatch.go] at h
  | cons p t ih =>
    simp only [fuzzyKeywordMatch.go] at h
    split at h
    · simp only [Option.some.injEq] at h
      simp [← h]
    · simp only [List.map_cons, List.mem_cons]
      exact Or.inr (ih h)

/-- The heuristic fallback only emits labels from the closed set. -/
theorem simpleFallback_mem (textLower : List Char) :
    simpleFallback textLower ∈ validIntents := by
  unfold simpleFallback
  split
  · decide
  split
  · decide
  split
  · decide
  split
  · decide
  · decide

/-- The OpenAI loop only ever returns validated labels. -/
theorem openaiGo_intent_mem (outcomes : Nat → OpenAIOutcome)
    (maxAttempts : Nat) (backoff : ℚ) :
    ∀ fuel attempt r,
      (openaiGo outcomes maxAttempts backoff attempt fuel).intent = some r →
      r ∈ validIntents := by
  intro fuel
  induction fuel with
  | zero => intro attempt r h; simp [openaiGo] at h
  | succ fuel ih =>
    intro attempt r h
    simp only [openaiGo] at h
    split at h
    · rename_i s
      simp only [Option.some.injEq] at h
      split at h
      · rename_i hmem
        rw [← h]
        simpa using hmem
      · rw [← h]; decide
    · simp at h
    all_goals
      split at h
      · exact ih _ _ h
      · simp at h

/-! ## C8 helpers: deduper invariant -/

theorem deduperInv_init (n : Nat) : DeduperInv (Deduper.init n) := by
  refine ⟨List.nodup_nil, ?_, by simp [Deduper.init]⟩
  intro k
  simp [Deduper.init]

theorem deduperInv_add (d : Deduper) (k : String) (h : DeduperInv d) :
    DeduperInv (d.add k).1 := by
  obtain ⟨hnd, hmem, hlen⟩ := h
  unfold Deduper.add
  by_cases hk : k ∈ d.sset
  · simpa [hk] using ⟨hnd, hmem, hlen⟩
  · have hkq : k ∉ d.queue := fun hq => hk ((hmem k).mpr hq)
    simp only [hk, if_false, if_neg, ite_not]
    by_cases hover : d.maxEntries < (d.queue ++ [k]).length
    · simp only [hover, if_true]
      cases hq : d.queue ++ [k] with
      | nil => simp at hq
      | cons old rest =>
        dsimp only
        have hnodup : (old :: rest).Nodup := by
          rw [← hq]
          exact (List.nodup_append.mpr
            ⟨hnd, List.nodup_singleton k, by
              intro x hx hxk
              simp only [List.mem_singleton] at hxk
              exact hkq (hxk ▸ hx)⟩)
        refine ⟨hnodup.of_cons, ?_, ?_⟩
        · intro x
          have hxq : x ∈ d.queue ++ [k] ↔ x = k ∨ x ∈ d.queue := by
            simp [or_comm]
          constructor
          · intro hx
            have hx' := Finset.mem_erase.mp hx
            have : x ∈ old :: rest := by
              rw [← hq, hxq]
              rcases Finset.mem_insert.mp hx'.2 with h1 | h1
              · exact Or.inl h1
              · exact Or.inr ((hmem x).mp h1)
            rcases List.mem_cons.mp this with h1 | h1
            · exact absurd h1 hx'.1
            · exact h1
          · intro hx
            have hne : x ≠ old := by
              intro hxe
              subst hxe
              exact (List.nodup_cons.mp hnodup).1 hx
            refine Finset.mem_erase.mpr ⟨hne, ?_⟩
            have : x ∈ d.queue ++ [k] := by
              rw [hq]
              exact List.mem_cons_of_mem _ hx
            rcases hxq.mp this with h1 | h1
            · exact h1 ▸ Finset.mem_insert_self _ _
            · exact Finset.mem_insert_of_mem ((hmem x).mpr h1)
        · have : (old :: rest).length = d.queue.length + 1 := by
            rw [← hq]; simp
          simp only [List.length_cons] at this
          dsimp only
          omega
    · simp only [hover, if_false]
      refine ⟨?_, ?_, ?_⟩
      · exact List.nodup_append.mpr
          ⟨hnd, List.nodup_singleton k, by
            intro x hx hxk
            simp only [List.mem_singleton] at hxk
            exact hkq (hxk ▸ hx)⟩
      · intro x
        constructor
        · intro hx
          rcases Finset.mem_insert.mp hx with h1 | h1
          · simp [h1]
          · simp [(hmem x).mp h1]
        · intro hx
          simp only [List.mem_append, List.mem_singleton] at hx
          rcases hx with h1 | h1
          · exact Finset.mem_insert_of_mem ((hmem x).mpr h1)
          · exact h1 ▸ Finset.mem_insert_self _ _
      · simp only [List.length_append, List.length_singleton] at hover ⊢
        omega

theorem deduperInv_reach (d : Deduper) (h : Deduper.Reach d) :
    DeduperInv d := by
  induction h with
  | init n => exact deduperInv_init n
  | step d k _ ih => exact deduperInv_add d k ih

/-- C8: for every dedup-cache state reachable by `add`/`contains` calls,
`add(key)` returns true exactly when the key was not already a member, the
retained keys never exceed the fixed capacity, `contains` holds exactly
for the retained keys, and an `add` at capacity evicts the oldest
(front-of-queue) key. -/
theorem deduper_fifo_contract :
    ∀ d : Deduper, Deduper.Reach d →
      (∀ k, (d.add k).2 = !(d.contains k)) ∧
      d.queue.length ≤ d.maxEntries ∧
      (∀ k, d.contains k = true ↔ k ∈ d.queue) ∧
      (∀ k, d.contains k = false → d.queue.length = d.maxEntries →
        0 < d.maxEntries → (d.add k).1.queue = d.queue.tail ++ [k]) := by
  intro d hreach
  obtain ⟨hnd, hmem, hlen⟩ := deduperInv_reach d hreach
  refine ⟨?_, hlen, ?_, ?_⟩
  · intro k
    by_cases hk : k ∈ d.sset
    · simp [Deduper.add, Deduper.contains, hk]
    · simp only [Deduper.add, Deduper.contains, hk, if_false, decide_False,
        Bool.not_false]
      split
      · split
        · rfl
        · rfl
      · rfl
  · intro k
    simp only [Deduper.contains, decide_eq_true_eq]
    exact hmem k
  · intro k hk hcap hpos
    have hknot : k ∉ d.sset := by
      simpa [Deduper.contains] using hk
    have hqne : d.queue ≠ [] := by
      intro hq
      rw [hq] at hcap
      simp at hcap
      omega
    obtain ⟨hd, tl, hq⟩ := List.exists_cons_of_ne_nil hqne
    have hover : d.maxEntries < (d.queue ++ [k]).length := by
      simp [hcap]
    simp only [Deduper.add, hknot, if_false, hq, List.cons_append]
    rw [if_pos]
    · rfl
    · rw [hq, List.cons_append] at hover
      exact hover

/-- C8 witness: the contract evaluated at a concrete reachable state
(capacity 1 holding `"a"`). -/
theorem deduper_fifo_contract_witness :
    ((((Deduper.init 1).add "a").1.add "b").2 = true) ∧
    (((Deduper.init 1).add "a").1.add "b").1.queue = ["b"] := by
  have h := deduper_fifo_contract ((Deduper.init 1).add "a").1
    (Deduper.Reach.step _ _ (Deduper.Reach.init 1))
  constructor
  · rw [h.1 "b"]
    decide
  · rw [h.2.2.2 "b" (by decide) (by decide) (by decide)]
    decide

/-! ## C1 helpers: idempotent recording -/

theorem countSid_append_single (db : List IncomingRow) (row : IncomingRow)
    (s : String) :
    countSid (db ++ [row]) s =
      countSid db s + (if row.messageSid == s then 1 else 0) := by
  simp only [countSid, List.filter_append]
  split <;> simp_all

theorem countSid_eq_zero_of_find?_none (db : List IncomingRow) (sid : String)
    (h : db.find? (fun r => r.messageSid == sid) = none) :
    countSid db sid = 0 := by
  have := List.find?_eq_none.mp h
  simp only [countSid, List.length_eq_zero]
  rw [List.filter_eq_nil_iff]
  intro a ha
  simpa using this a ha

theorem recordIncoming_atMostOne (db : List IncomingRow) (sid : String)
    (uid : Option Nat) (frm now : String) (h : AtMostOne db) :
    AtMostOne (recordIncomingMessage db sid uid frm now).1 := by
  unfold recordIncomingMessage
  cases hf : db.find? (fun r => r.messageSid == sid) with
  | some row => simpa using h
  | none =>
    intro s
    simp only
    rw [countSid_append_single]
    by_cases hs : sid = s
    · subst hs
      have := countSid_eq_zero_of_find?_none db sid hf
      simp [this]
    · have : ((⟨sid, uid, frm, false, now, none⟩ :
          IncomingRow).messageSid == s) = false := by
        simpa using hs
      rw [this]
      simpa using h s

theorem applyRecCalls_atMostOne (calls : List RecCall)
    (db : List IncomingRow) (h : AtMostOne db) :
    AtMostOne (applyRecCalls db calls) := by
  induction calls generalizing db with
  | nil => simpa [applyRecCalls] using h
  | cons c rest ih =>
    simp only [applyRecCalls]
    exact ih _ (recordIncoming_atMostOne db c.sid c.uid c.frm c.now h)

theorem recordIncoming_ok (db : List IncomingRow) (sid : String)
    (uid : Option Nat) (frm now : String) :
    (recordIncomingMessage db sid uid frm now).2.ok = true := by
  unfold recordIncomingMessage
  cases db.find? (fun r => r.messageSid == sid) <;> rfl

/-- C1: `record_incoming_message` never fails — a duplicate insert is
answered with the existing row as a success — and any sequence of calls
leaves at most one logical row per `message_sid`. -/
theorem record_incoming_idempotent :
    (∀ db sid uid frm now,
      (recordIncomingMessage db sid uid frm now).2.ok = true) ∧
    (∀ db sid uid frm now row,
      db.find? (fun r => r.messageSid == sid) = some row →
      (recordIncomingMessage db sid uid frm now).1 = db ∧
      (recordIncomingMessage db sid uid frm now).2 =
        ⟨true, some (.fetched row)⟩) ∧
    (∀ calls sid, countSid (applyRecCalls [] calls) sid ≤ 1) := by
  refine ⟨?_, ?_, ?_⟩
  · exact recordIncoming_ok
  · intro db sid uid frm now row hf
    unfold recordIncomingMessage
    rw [hf]
    exact ⟨rfl, rfl⟩
  · intro calls sid
    exact applyRecCalls_atMostOne calls [] (by intro s; simp [countSid]) sid

/-! ## C2 helpers: processed-flag discipline -/

theorem getProcessed_record (db : List IncomingRow) (sid : String)
    (uid : Option Nat) (frm now : String) :
    getProcessed (recordIncomingMessage db sid uid frm now).1 sid =
      getProcessed db sid := by
  unfold recordIncomingMessage getProcessed
  cases hf : db.find? (fun r => r.messageSid == sid) with
  | some row => simp [hf]
  | none =>
    simp only [hf]
    rw [List.find?_append, hf]
    simp

theorem recordFlag_eq_getProcessed (db : List IncomingRow) (sid : String)
    (uid : Option Nat) (frm now : String) :
    (match (recordIncomingMessage db sid uid frm now).2.data with
     | some (.fetched r) => r.processed
     | _ => false) = getProcessed db sid := by
  unfold recordIncomingMessage getProcessed
  cases hf : db.find? (fun r => r.messageSid == sid) <;> simp

theorem record_mem_sid (db : List IncomingRow) (sid : String)
    (uid : Option Nat) (frm now : String) :
    ∃ r ∈ (recordIncomingMessage db sid uid frm now).1,
      r.messageSid = sid := by
  unfold recordIncomingMessage
  cases hf : db.find? (fun r => r.messageSid == sid) with
  | some row =>
    refine ⟨row, List.mem_of_find?_eq_some hf, ?_⟩
    have := List.find?_some hf
    simpa using this
  | none => exact ⟨⟨sid, uid, frm, false, now, none⟩, by simp, rfl⟩

theorem getProcessed_mark (db : List IncomingRow) (sid now : String)
    (h : ∃ r ∈ db, r.messageSid = sid) :
    getProcessed (markIncomingProcessed db sid now).1 sid = true := by
  obtain ⟨r₀, hr₀, hs⟩ := h
  have hsome : (db.find? (fun r => r.messageSid == sid)).isSome :=
    List.find?_isSome.mpr ⟨r₀, hr₀, by simp [hs]⟩
  obtain ⟨r₁, hr₁⟩ := Option.isSome_iff_exists.mp hsome
  have hps : (r₁.messageSid == sid) = true :=
    List.find?_some (p := fun r : IncomingRow => r.messageSid == sid) hr₁
  unfold markIncomingProcessed getProcessed
  rw [List.find?_map]
  have hcomp : ((fun r : IncomingRow => r.messageSid == sid) ∘
      (fun r : IncomingRow =>
        if r.messageSid == sid then
          { r with processed := true, processedAt := some now }
        else r)) = fun r : IncomingRow => r.messageSid == sid := by
    funext r
    dsimp only [Function.comp]
    split <;> rfl
  rw [hcomp, hr₁]
  have hps' : r₁.messageSid = sid := by simpa using hps
  simp [hps']

/-- C2: the webhook acknowledges every delivery, and the stored
`processed` flag becomes true only when `process_webhook` completed
without raising; a failed handler leaves the flag untouched so a retry
can re-attempt. -/
theorem webhook_processed_only_on_success :
    ∀ db sid uid phone now handlerOk,
      ((webhookProcess db sid uid phone now handlerOk).2 = true) ∧
      (handlerOk = false →
        getProcessed (webhookProcess db sid uid phone now handlerOk).1 sid =
          getProcessed db sid) ∧
      (getProcessed (webhookProcess db sid uid phone now handlerOk).1 sid
          = true →
        getProcessed db sid = true ∨ handlerOk = true) ∧
      (handlerOk = true →
        getProcessed (webhookProcess db sid uid phone now handlerOk).1 sid
          = true) := by
  intro db sid uid phone now handlerOk
  have hok := recordIncoming_ok db sid uid phone now
  have hflag := recordFlag_eq_getProcessed db sid uid phone now
  have hrec := getProcessed_record db sid uid phone now
  have heq : webhookProcess db sid uid phone now handlerOk =
      (if getProcessed db sid then
        ((recordIncomingMessage db sid uid phone now).1, true)
      else if handlerOk then
        ((markIncomingProcessed (recordIncomingMessage db sid uid phone now).1
          sid now).1, true)
      else ((recordIncomingMessage db sid uid phone now).1, true)) := by
    unfold webhookProcess
    simp only [hok, Bool.true_and]
    rw [hflag]
  rw [heq]
  by_cases hp : getProcessed db sid = true
  · rw [if_pos hp]
    exact ⟨rfl, fun _ => hrec, fun _ => Or.inl hp,
      fun _ => by rw [hrec]; exact hp⟩
  · rw [if_neg hp]
    cases handlerOk with
    | false =>
      rw [if_neg (by simp)]
      exact ⟨rfl, fun _ => hrec,
        fun h => Or.inl (by rw [← hrec]; exact h),
        fun hcon => by simp at hcon⟩
    | true =>
      rw [if_pos rfl]
      have hm := getProcessed_mark
        (recordIncomingMessage db sid uid phone now).1 sid now
        (record_mem_sid db sid uid phone now)
      exact ⟨rfl, fun hcon => by simp at hcon, fun _ => Or.inr rfl,
        fun _ => hm⟩

/-- C2 witness: a failing handler on a fresh sid leaves `processed`
false while the acknowledgment is still returned. -/
theorem webhook_processed_only_on_success_witness :
    ((webhookProcess [] "SM9" none "+1555" "t0" false).2 = true) ∧
    getProcessed (webhookProcess [] "SM9" none "+1555" "t0" false).1 "SM9" =
      getProcessed [] "SM9" :=
  ⟨(webhook_processed_only_on_success [] "SM9" none "+1555" "t0" false).1,
    (webhook_processed_only_on_success [] "SM9" none "+1555" "t0" false).2.1
      rfl⟩

/-- C1 witness: a duplicate `record_incoming_message` call on a stored sid
returns the existing row and leaves the table unchanged. -/
theorem record_incoming_idempotent_witness :
    (recordIncomingMessage [⟨"SM1", none, "+1555", false, "t0", none⟩]
        "SM1" (some 7) "+1555" "t1").1 =
      [⟨"SM1", none, "+1555", false, "t0", none⟩] ∧
    (recordIncomingMessage [⟨"SM1", none, "+1555", false, "t0", none⟩]
        "SM1" (some 7) "+1555" "t1").2 =
      ⟨true, some (.fetched ⟨"SM1", none, "+1555", false, "t0", none⟩)⟩ :=
  record_incoming_idempotent.2.1 [⟨"SM1", none, "+1555", false, "t0", none⟩]
    "SM1" (some 7) "+1555" "t1" ⟨"SM1", none, "+1555", false, "t0", none⟩
    (by decide)

/-- C3: at the DIET step a body of `"2"` persists `diet="non-veg"`
together with the next step CUISINE in one update patch; the
`{1/veg→veg, 2/non-veg→non-veg, 3/both→both}` mapping is applied, and any
body outside the mapping stores `"both"`. -/
theorem diet_step_mapping :
    (onbStep STEP_DIET "2".data =
      some (updateUserDietAndOnboardingStep "non-veg" STEP_CUISINE)) ∧
    (updateUserDietAndOnboardingStep "non-veg" STEP_CUISINE =
      [PatchField.diet "non-veg", PatchField.onboardingStep (some 2)]) ∧
    (∀ body,
      String.mk (pyLower body) = "1" ∨ String.mk (pyLower body) = "veg" →
      onbStep STEP_DIET body =
        some (updateUserDietAndOnboardingStep "veg" STEP_CUISINE)) ∧
    (∀ body,
      String.mk (pyLower body) = "2" ∨
        String.mk (pyLower body) = "non-veg" →
      onbStep STEP_DIET body =
        some (updateUserDietAndOnboardingStep "non-veg" STEP_CUISINE)) ∧
    (∀ body,
      String.mk (pyLower body) = "3" ∨ String.mk (pyLower body) = "both" →
      onbStep STEP_DIET body =
        some (updateUserDietAndOnboardingStep "both" STEP_CUISINE)) ∧
    (∀ body,
      String.mk (pyLower body) ∉
        (["1", "2", "3", "veg", "non-veg", "both"] : List String) →
      onbStep STEP_DIET body =
        some (updateUserDietAndOnboardingStep "both" STEP_CUISINE)) := by
  have hstep : ∀ body, onbStep STEP_DIET body =
      some (updateUserDietAndOnboardingStep (onbDietValue body)
        STEP_CUISINE) := fun _ => rfl
  refine ⟨by decide, rfl, ?_, ?_, ?_, ?_⟩
  · intro body h
    rw [hstep]
    unfold onbDietValue
    rcases h with h | h <;> rw [h] <;> rfl
  · intro body h
    rw [hstep]
    unfold onbDietValue
    rcases h with h | h <;> rw [h] <;> rfl
  · intro body h
    rw [hstep]
    unfold onbDietValue
    rcases h with h | h <;> rw [h] <;> rfl
  · intro body h
    rw [hstep]
    unfold onbDietValue
    rw [lookup_eq_none_of_notMem dietMapping _ (by simpa [dietMapping] using h)]
    rfl

/-- C3 witness: an unmapped body (`"chicken"`) stores `diet="both"` with
next step CUISINE. -/
theorem diet_step_mapping_witness :
    onbStep STEP_DIET "chicken".data =
      some (updateUserDietAndOnboardingStep "both" STEP_CUISINE) :=
  diet_step_mapping.2.2.2.2.2 "chicken".data (by decide)

/-- C4: `"what can I make with eggs and rice"` classifies as PANTRY_HELP
through the pattern stage (not WHATSDINNER); the pattern stage and the
keyword stage scan the same compiled table, and whenever the pattern
stage matches, its result is what `classify_intent` returns. -/
theorem pattern_stage_precedence :
    (patternMatch (pyStrip "what can I make with eggs and rice".data) =
      some "PANTRY_HELP") ∧
    (classifyIntent none "what can I make with eggs and rice".data =
      "PANTRY_HELP") ∧
    ("PANTRY_HELP" ≠ "WHATSDINNER") ∧
    (∀ text, patternMatch text = preciseKeywordMatch text) ∧
    (∀ llm text r, patternMatch (pyStrip text) = some r →
      classifyIntent llm text = r) := by
  refine ⟨by decide, by decide, by decide, fun _ => rfl, ?_⟩
  intro llm text r h
  simp only [classifyIntent, h]

/-- C4 witness: the precedence consequence applied at a concrete text
matching a pattern rule while an LLM client is configured. -/
theorem pattern_stage_precedence_witness :
    classifyIntent (some fun _ => OpenAIOutcome.authError)
      "how to make pasta".data = "RECIPE_REQUEST" :=
  pattern_stage_precedence.2.2.2.2 (some fun _ => OpenAIOutcome.authError)
    "how to make pasta".data "RECIPE_REQUEST" (by decide)

/-- C9: `classify_intent` always returns a label from the closed intent
set, for every input (empty and whitespace-only included) and any LLM
configuration; with no LLM client and no rule-stage or heuristic keyword
match the result is OTHER. -/
theorem classifier_closed_set :
    (∀ llm text, classifyIntent llm text ∈ validIntents) ∧
    (∀ text, patternMatch (pyStrip text) = none →
      preciseKeywordMatch (pyStrip text) = none →
      hinglishPatternMatch (pyStrip text) = none →
      fuzzyKeywordMatch (pyLower (pyStrip text)) = none →
      fallbackRecipeKws.any
        (fun w => containsSub w (pyLower (pyStrip text))) = false →
      fallbackDinnerKws.any
        (fun w => containsSub w (pyLower (pyStrip text))) = false →
      fallbackPantryKws.any
        (fun w => containsSub w (pyLower (pyStrip text))) = false →
      fallbackPlanKws.any
        (fun w => containsSub w (pyLower (pyStrip text))) = false →
      classifyIntent none text = "OTHER") := by
  constructor
  · intro llm text
    have hcompiled : ∀ x ∈ compiledPatterns.map Prod.fst,
        x ∈ validIntents := by decide
    have hhing : ∀ x ∈ hinglishPatterns.map Prod.fst,
        x ∈ validIntents := by decide
    have hfuzzy : ∀ x ∈ fuzzyPatterns.map Prod.fst,
        x ∈ validIntents := by decide
    cases hp : patternMatch (pyStrip text) with
    | some r =>
      simp only [classifyIntent, hp]
      exact hcompiled r (firstMatch_mem _ _ _ hp)
    | none =>
      cases hk : preciseKeywordMatch (pyStrip text) with
      | some r =>
        simp only [classifyIntent, hp, hk]
        exact hcompiled r (firstMatch_mem _ _ _ hk)
      | none =>
        cases hh : hinglishPatternMatch (pyStrip text) with
        | some r =>
          simp only [classifyIntent, hp, hk, hh]
          exact hhing r (firstMatch_mem _ _ _ hh)
        | none =>
          cases hf : fuzzyKeywordMatch (pyLower (pyStrip text)) with
          | some r =>
            simp only [classifyIntent, hp, hk, hh, hf]
            exact hfuzzy r (fuzzyGo_mem _ _ _ hf)
          | none =>
            cases llm with
            | none =>
              simp only [classifyIntent, hp, hk, hh, hf]
              exact simpleFallback_mem _
            | some outcomes =>
              cases hi : (classifyWithOpenai outcomes).intent with
              | some r =>
                simp only [classifyIntent, hp, hk, hh, hf, hi]
                exact openaiGo_intent_mem outcomes 3 (4 / 5) 3 1 r hi
              | none =>
                simp only [classifyIntent, hp, hk, hh, hf, hi]
                exact simpleFallback_mem _
  · intro text h1 h2 h3 h4 h5 h6 h7 h8
    simp only [classifyIntent, h1, h2, h3, h4]
    unfold simpleFallback
    rw [h5, h6, h7, h8]
    rfl

/-- C9 witness: the OTHER fallback evaluated at the empty input. -/
theorem classifier_closed_set_witness :
    classifyIntent none "".data = "OTHER" :=
  classifier_closed_set.2 "".data (by decide) (by decide) (by decide)
    (by decide) (by decide) (by decide) (by decide) (by decide)

/-! ## C5 helpers: outbound sender retry loop -/

theorem sendLoop_transient (provider : Nat → SendOutcome) (backoff : ℚ)
    (h : ∀ n, (provider n).transient = true) :
    ∀ fuel attempt lastE, 1 ≤ attempt →
      (sendLoop provider backoff attempt lastE fuel).ok = false ∧
      (sendLoop provider backoff attempt lastE fuel).attempts =
        attempt + fuel - 1 ∧
      (sendLoop provider backoff attempt lastE fuel).error =
        some "exhausted_retries" ∧
      (sendLoop provider backoff attempt lastE fuel).sleeps =
        (List.range' attempt fuel).map (fun i => backoff * 2 ^ (i - 1)) := by
  intro fuel
  induction fuel with
  | zero =>
    intro attempt lastE _
    exact ⟨rfl, rfl, rfl, by simp [sendLoop]⟩
  | succ fuel ih =>
    intro attempt lastE hge
    have ht := h attempt
    cases ho : provider attempt with
    | success sid status => rw [ho] at ht; simp [SendOutcome.transient] at ht
    | restErr code msg =>
      rw [ho] at ht
      cases code with
      | none =>
        simp only [sendLoop, ho]
        rw [if_neg (by simp)]
        obtain ⟨i1, i2, i3, i4⟩ := ih (attempt + 1) (some msg) (by omega)
        refine ⟨i1, by rw [i2]; omega, i3, ?_⟩
        rw [i4, List.range'_succ, List.map_cons]
      | some c =>
        have hc : (!(nonTransientCodes.contains c)) = true := ht
        rw [Bool.not_eq_true'] at hc
        have hc' : c ∉ nonTransientCodes := by simpa using hc
        simp only [sendLoop, ho]
        rw [if_neg (by simpa using hc')]
        obtain ⟨i1, i2, i3, i4⟩ := ih (attempt + 1) (some msg) (by omega)
        refine ⟨i1, by rw [i2]; omega, i3, ?_⟩
        rw [i4, List.range'_succ, List.map_cons]
    | twilioErr msg =>
      simp only [sendLoop, ho]
      obtain ⟨i1, i2, i3, i4⟩ := ih (attempt + 1) (some msg) (by omega)
      refine ⟨i1, by rw [i2]; omega, i3, ?_⟩
      rw [i4, List.range'_succ, List.map_cons]
    | otherErr msg =>
      simp only [sendLoop, ho]
      obtain ⟨i1, i2, i3, i4⟩ := ih (attempt + 1) (some msg) (by omega)
      refine ⟨i1, by rw [i2]; omega, i3, ?_⟩
      rw [i4, List.range'_succ, List.map_cons]

theorem sendLoop_attempts_le (provider : Nat → SendOutcome) (backoff : ℚ) :
    ∀ fuel attempt lastE, 1 ≤ attempt →
      (sendLoop provider backoff attempt lastE fuel).attempts ≤
        attempt + fuel - 1 := by
  intro fuel
  induction fuel with
  | zero => intro attempt lastE _; exact Nat.le_refl _
  | succ fuel ih =>
    intro attempt lastE hge
    cases ho : provider attempt with
    | success sid status =>
      simp only [sendLoop, ho]
      show attempt ≤ attempt + (fuel + 1) - 1
      omega
    | restErr code msg =>
      simp only [sendLoop, ho]
      split
      · show attempt ≤ attempt + (fuel + 1) - 1
        omega
      · have := ih (attempt + 1) (some msg) (by omega)
        show (sendLoop provider backoff (attempt + 1) (some msg)
          fuel).attempts ≤ attempt + (fuel + 1) - 1
        omega
    | twilioErr msg =>
      simp only [sendLoop, ho]
      have := ih (attempt + 1) (some msg) (by omega)
      show (sendLoop provider backoff (attempt + 1) (some msg)
        fuel).attempts ≤ attempt + (fuel + 1) - 1
      omega
    | otherErr msg =>
      simp only [sendLoop, ho]
      have := ih (attempt + 1) (some msg) (by omega)
      show (sendLoop provider backoff (attempt + 1) (some msg)
        fuel).attempts ≤ attempt + (fuel + 1) - 1
      omega

/-- C5: with every attempt failing transiently, `send_whatsapp_message`
performs exactly `max_retries + 1` attempts with exponential backoff
sleeps and reports `exhausted_retries`; a known non-transient Twilio code
returns the failure immediately with no retry and no sleep; the attempt
count never exceeds the configured bound. -/
theorem send_retry_bound :
    (∀ (provider : Nat → SendOutcome) maxRetries (backoff : ℚ),
      (∀ n, (provider n).transient = true) →
      (sendWhatsappMessage provider maxRetries backoff).ok = false ∧
      (sendWhatsappMessage provider maxRetries backoff).attempts =
        maxRetries + 1 ∧
      (sendWhatsappMessage provider maxRetries backoff).error =
        some "exhausted_retries" ∧
      (sendWhatsappMessage provider maxRetries backoff).sleeps =
        (List.range (maxRetries + 1)).map (fun i => backoff * 2 ^ i)) ∧
    (∀ (provider : Nat → SendOutcome) maxRetries (backoff : ℚ) c msg,
      c ∈ nonTransientCodes →
      provider 1 = .restErr (some c) msg →
      sendWhatsappMessage provider maxRetries backoff =
        ⟨false, 1, some msg, none, none, []⟩) ∧
    (∀ (provider : Nat → SendOutcome) maxRetries (backoff : ℚ),
      (sendWhatsappMessage provider maxRetries backoff).attempts ≤
        maxRetries + 1) := by
  refine ⟨?_, ?_, ?_⟩
  · intro provider maxRetries backoff h
    unfold sendWhatsappMessage
    obtain ⟨i1, i2, i3, i4⟩ :=
      sendLoop_transient provider backoff h (maxRetries + 1) 1 none
        (by omega)
    refine ⟨i1, by rw [i2]; omega, i3, ?_⟩
    rw [i4, List.range'_eq_map_range]
    rw [List.map_map]
    refine List.map_congr_left ?_
    intro i _
    simp only [Function.comp_apply]
    norm_num
  · intro provider maxRetries backoff c msg hc hp
    have hcontains : nonTransientCodes.contains c = true := by
      simpa using hc
    unfold sendWhatsappMessage
    simp only [sendLoop, hp]
    rw [if_pos hcontains]
  · intro provider maxRetries backoff
    have := sendLoop_attempts_le provider backoff (maxRetries + 1) 1 none
      (by omega)
    unfold sendWhatsappMessage
    omega

/-- C5 witness: an always-transient provider with `max_retries = 2` makes
exactly 3 attempts and reports the exhausted failure. -/
theorem send_retry_bound_witness :
    (sendWhatsappMessage (fun _ => .twilioErr "boom") 2 (3 / 10)).attempts
        = 3 ∧
    (sendWhatsappMessage (fun _ => .twilioErr "boom") 2 (3 / 10)).ok
        = false ∧
    (sendWhatsappMessage (fun _ => .twilioErr "boom") 2 (3 / 10)).error
        = some "exhausted_retries" :=
  ⟨(send_retry_bound.1 (fun _ => .twilioErr "boom") 2 (3 / 10)
      (fun _ => rfl)).2.1,
    (send_retry_bound.1 (fun _ => .twilioErr "boom") 2 (3 / 10)
      (fun _ => rfl)).1,
    (send_retry_bound.1 (fun _ => .twilioErr "boom") 2 (3 / 10)
      (fun _ => rfl)).2.2.1⟩

/-! ## C6 helpers: LLM fallback retry loop -/

theorem openaiGo_transient_step (outcomes : Nat → OpenAIOutcome)
    (maxA : Nat) (backoff : ℚ) (attempt fuel : Nat)
    (ht : (outcomes attempt).transient = true) (hlt : attempt < maxA) :
    openaiGo outcomes maxA backoff attempt (fuel + 1) =
      ⟨(openaiGo outcomes maxA backoff (attempt + 1) fuel).intent,
        (openaiGo outcomes maxA backoff (attempt + 1) fuel).attemptsMade,
        backoff * attempt ::
          (openaiGo outcomes maxA backoff (attempt + 1) fuel).sleeps⟩ := by
  cases ho : outcomes attempt <;> rw [ho] at ht <;>
    simp_all [OpenAIOutcome.transient, openaiGo]

theorem openaiGo_transient_last (outcomes : Nat → OpenAIOutcome)
    (maxA : Nat) (backoff : ℚ) (attempt fuel : Nat)
    (ht : (outcomes attempt).transient = true) (hge : ¬attempt < maxA) :
    openaiGo outcomes maxA backoff attempt (fuel + 1) =
      ⟨none, attempt, []⟩ := by
  cases ho : outcomes attempt <;> rw [ho] at ht <;>
    simp_all [OpenAIOutcome.transient, openaiGo]

theorem openaiGo_auth (outcomes : Nat → OpenAIOutcome) (maxA : Nat)
    (backoff : ℚ) (attempt fuel : Nat)
    (ho : outcomes attempt = .authError) :
    openaiGo outcomes maxA backoff attempt (fuel + 1) =
      ⟨none, attempt, []⟩ := by
  simp [openaiGo, ho]

theorem openaiGo_attempts_le (outcomes : Nat → OpenAIOutcome) (maxA : Nat)
    (backoff : ℚ) :
    ∀ fuel attempt, 1 ≤ attempt →
      (openaiGo outcomes maxA backoff attempt fuel).attemptsMade ≤
        attempt + fuel - 1 := by
  intro fuel
  induction fuel with
  | zero => intro attempt _; exact Nat.le_refl _
  | succ fuel ih =>
    intro attempt hge
    cases ho : outcomes attempt with
    | content s =>
      simp only [openaiGo, ho]
      show attempt ≤ attempt + (fuel + 1) - 1
      omega
    | authError =>
      simp only [openaiGo, ho]
      show attempt ≤ attempt + (fuel + 1) - 1
      omega
    | emptyContent =>
      simp only [openaiGo, ho]
      split
      · have := ih (attempt + 1) (by omega)
        show (openaiGo outcomes maxA backoff (attempt + 1)
          fuel).attemptsMade ≤ attempt + (fuel + 1) - 1
        omega
      · show attempt ≤ attempt + (fuel + 1) - 1
        omega
    | rateLimited =>
      simp only [openaiGo, ho]
      split
      · have := ih (attempt + 1) (by omega)
        show (openaiGo outcomes maxA backoff (attempt + 1)
          fuel).attemptsMade ≤ attempt + (fuel + 1) - 1
        omega
      · show attempt ≤ attempt + (fuel + 1) - 1
        omega
    | openaiErr =>
      simp only [openaiGo, ho]
      split
      · have := ih (attempt + 1) (by omega)
        show (openaiGo outcomes maxA backoff (attempt + 1)
          fuel).attemptsMade ≤ attempt + (fuel + 1) - 1
        omega
      · show attempt ≤ attempt + (fuel + 1) - 1
        omega
    | otherExc =>
      simp only [openaiGo, ho]
      split
      · have := ih (attempt + 1) (by omega)
        show (openaiGo outcomes maxA backoff (attempt + 1)
          fuel).attemptsMade ≤ attempt + (fuel + 1) - 1
        omega
      · show attempt ≤ attempt + (fuel + 1) - 1
        omega

/-- C6: the LLM fallback makes at most 3 attempts; an all-transient run
makes exactly 3 attempts with exponential backoff sleeps and returns no
intent; an authentication error aborts at its first occurrence with no
further attempts; and a `None` LLM result hands the decision to the
deterministic fallback. -/
theorem llm_fallback_retry_policy :
    (∀ outcomes, (classifyWithOpenai outcomes).attemptsMade ≤ 3) ∧
    (∀ outcomes, (∀ n, (outcomes n).transient = true) →
      classifyWithOpenai outcomes =
        ⟨none, 3, (List.range 2).map (fun i => (4 / 5 : ℚ) * 2 ^ i)⟩) ∧
    (∀ outcomes k, 1 ≤ k → k ≤ 3 →
      (∀ j, 1 ≤ j → j < k → (outcomes j).transient = true) →
      outcomes k = .authError →
      (classifyWithOpenai outcomes).intent = none ∧
      (classifyWithOpenai outcomes).attemptsMade = k) ∧
    (∀ outcomes text, (classifyWithOpenai outcomes).intent = none →
      patternMatch (pyStrip text) = none →
      preciseKeywordMatch (pyStrip text) = none →
      hinglishPatternMatch (pyStrip text) = none →
      fuzzyKeywordMatch (pyLower (pyStrip text)) = none →
      classifyIntent (some outcomes) text =
        simpleFallback (pyLower (pyStrip text))) := by
  refine ⟨?_, ?_, ?_, ?_⟩
  · intro outcomes
    have := openaiGo_attempts_le outcomes 3 (4 / 5) 3 1 (by omega)
    simpa [classifyWithOpenai] using this
  · intro outcomes h
    unfold classifyWithOpenai
    rw [show (3 : Nat) = 2 + 1 from rfl,
      openaiGo_transient_step outcomes 3 (4 / 5) 1 2 (h 1) (by omega),
      show (2 : Nat) = 1 + 1 from rfl,
      openaiGo_transient_step outcomes 3 (4 / 5) 2 1 (h 2) (by omega),
      openaiGo_transient_last outcomes 3 (4 / 5) 3 0 (h 3) (by omega)]
    norm_num [List.range_succ]
  · intro outcomes k hk1 hk3 htrans hauth
    interval_cases k
    · rw [show classifyWithOpenai outcomes =
          openaiGo outcomes 3 (4 / 5) 1 (2 + 1) from rfl,
        openaiGo_auth outcomes 3 (4 / 5) 1 2 hauth]
      exact ⟨rfl, rfl⟩
    · rw [show classifyWithOpenai outcomes =
          openaiGo outcomes 3 (4 / 5) 1 (2 + 1) from rfl,
        openaiGo_transient_step outcomes 3 (4 / 5) 1 2
          (htrans 1 (by omega) (by omega)) (by omega),
        show (2 : Nat) = 1 + 1 from rfl,
        openaiGo_auth outcomes 3 (4 / 5) 2 1 hauth]
      exact ⟨rfl, rfl⟩
    · rw [show classifyWithOpenai outcomes =
          openaiGo outcomes 3 (4 / 5) 1 (2 + 1) from rfl,
        openaiGo_transient_step outcomes 3 (4 / 5) 1 2
          (htrans 1 (by omega) (by omega)) (by omega),
        show (2 : Nat) = 1 + 1 from rfl,
        openaiGo_transient_step outcomes 3 (4 / 5) 2 1
          (htrans 2 (by omega) (by omega)) (by omega),
        openaiGo_auth outcomes 3 (4 / 5) 3 0 hauth]
      exact ⟨rfl, rfl⟩
  · intro outcomes text hnone h1 h2 h3 h4
    simp only [classifyIntent, h1, h2, h3, h4, hnone]

/-- C6 witness: an authentication failure on the very first attempt ends
the loop with one attempt and no intent. -/
theorem llm_fallback_retry_policy_witness :
    (classifyWithOpenai (fun _ => .authError)).intent = none ∧
    (classifyWithOpenai (fun _ => .authError)).attemptsMade = 1 :=
  llm_fallback_retry_policy.2.2.1 (fun _ => .authError) 1 (by omega)
    (by omega) (fun j hj1 hj2 => absurd hj2 (by omega)) rfl

/-- C7: no meal passing the preference filter contains a (non-empty)
user allergen as a substring of its joined ingredient or tag text, and
the recommendation pipeline's relaxed pass plus built-in defaults make
the returned list non-empty no matter what the candidates were. -/
theorem filter_allergy_safety :
    (∀ meals (c : Criteria) m, m ∈ applyPreferencesFilter meals c →
      ∀ a ∈ c.allergies, pyLower a.data ≠ [] →
        containsSub (pyLower a.data) (joinLower m.ingredients) = false ∧
        containsSub (pyLower a.data) (joinLower m.tags) = false) ∧
    (∀ recs dbAll (c : Criteria) maxResults,
      generateRecommendations recs dbAll c maxResults ≠ []) := by
  constructor
  · intro meals c m hm a ha hne
    have hallowed := (List.mem_filter.mp hm).2
    unfold mealAllowed at hallowed
    dsimp only at hallowed
    split at hallowed
    · exact absurd hallowed (by simp)
    · rw [List.all_eq_true] at hallowed
      have hmem : pyLower a.data ∈
          c.allergies.map (fun a => pyLower a.data) :=
        List.mem_map_of_mem _ ha
      have h2 := hallowed _ hmem
      have hempty : (pyLower a.data).isEmpty = false := by
        simpa [List.isEmpty_iff] using hne
      simp only [hempty, Bool.not_false, Bool.true_and, Bool.not_eq_true',
        Bool.or_eq_false_iff] at h2
      exact h2
  · intro recs dbAll c maxResults
    have hfinal : ∀ l : List FormattedRec,
        (if l = [] then defaultRecommendations else l) ≠ [] := by
      intro l
      split
      · decide
      · assumption
    unfold generateRecommendations
    dsimp only
    exact hfinal _

/-- C7 witness: a vegetarian user allergic to peanut gets a peanut-free
meal through the filter. -/
theorem filter_allergy_safety_witness :
    containsSub (pyLower "peanut".data)
      (joinLower (["dal", "rice"] : List String)) = false ∧
    containsSub (pyLower "peanut".data)
      (joinLower (["comfort"] : List String)) = false :=
  filter_allergy_safety.1
    [⟨"Dal Rice", "indian", "veg", "", ["dal", "rice"], ["comfort"]⟩]
    ⟨"veg", ["peanut"]⟩
    ⟨"Dal Rice", "indian", "veg", "", ["dal", "rice"], ["comfort"]⟩
    (by decide) "peanut" (by decide) (by decide)

/-! ## C10 helpers: comparing the two onboarding implementations -/

theorem toNat_charOfNat {n : Nat} (h : n.isValidChar) :
    (Char.ofNat n).toNat = n := by
  simp [Char.ofNat, h]
  rfl

/-- A character below the uppercase letters is fixed by lowering. -/
theorem pyLowerChar_fixed {d : Char} (hd : d.toNat < 65) :
    pyLowerChar d = d := by
  unfold pyLowerChar
  rw [if_neg]
  intro hc
  have h1n : 65 ≤ d.toNat := hc.1
  omega

/-- Lowering cannot produce a character below the lowercase letters, so on
such characters it is injectively trivial. -/
theorem pyLowerChar_eq_iff {c d : Char} (hd : d.toNat < 65) :
    pyLowerChar c = d ↔ c = d := by
  constructor
  · intro h
    unfold pyLowerChar at h
    split at h
    · rename_i hc
      exfalso
      have h1n : 65 ≤ c.toNat := hc.1
      have h2n : c.toNat ≤ 90 := hc.2
      have hv : (c.toNat + 32).isValidChar := by left; omega
      have := congrArg Char.toNat h
      rw [toNat_charOfNat hv] at this
      omega
    · exact h
  · intro h
    rw [h]
    exact pyLowerChar_fixed hd

theorem pyLower_eq_single {body : List Char} {d : Char}
    (hd : d.toNat < 65) : pyLower body = [d] ↔ body = [d] := by
  constructor
  · intro h
    cases body with
    | nil => simp [pyLower] at h
    | cons c t =>
      simp only [pyLower, List.map_cons, List.cons.injEq] at h
      obtain ⟨h1, h2⟩ := h
      have ht : t = [] := by simpa using h2
      rw [(pyLowerChar_eq_iff hd).mp h1, ht]
  · intro h
    rw [h]
    simp [pyLower, pyLowerChar_fixed hd]

theorem splitRuns_map (isSep₁ isSep₂ : Char → Bool) (f : Char → Char)
    (hsep : ∀ x, isSep₁ (f x) = isSep₂ x)
    (hid : ∀ x, isSep₂ x = false → f x = x) :
    ∀ l : List Char, splitRuns isSep₁ (l.map f) = splitRuns isSep₂ l := by
  intro l
  induction l with
  | nil => rfl
  | cons c cs ih =>
    simp only [List.map_cons, splitRuns]
    rw [hsep c]
    by_cases hc : isSep₂ c = true
    · simp only [hc, if_true]
      cases cs with
      | nil => rfl
      | cons c₂ t =>
        simp only [List.map_cons]
        rw [hsep c₂, ← List.map_cons, ih]
    · have hc' : isSep₂ c = false := by simpa using hc
      simp only [hc', Bool.false_eq_true, if_false]
      rw [hid c hc', ih]

theorem filter_map_strip_filter (l : List (List Char)) :
    ((l.filter (fun p => !p.isEmpty)).map pyStrip).filter
        (fun p => !p.isEmpty) =
      (l.map pyStrip).filter (fun p => !p.isEmpty) := by
  induction l with
  | nil => rfl
  | cons c t ih =>
    by_cases hc : c.isEmpty = true
    · have hcn : c = [] := by simpa using hc
      subst hcn
      exact ih
    · have hc' : c.isEmpty = false := by simpa using hc
      simp only [List.filter_cons, List.map_cons, hc', Bool.not_false,
        if_true]
      rw [ih]

theorem allergyParts_eq (body : List Char) :
    onbAllergyParts body = usAllergyParts body := by
  unfold onbAllergyParts usAllergyParts pySplitWS
  have hrep : replaceChar ',' ' ' body =
      body.map (fun c => if c = ',' then ' ' else c) := rfl
  rw [hrep, splitRuns_map isPyWS isCommaWS _ ?_ ?_ body]
  · exact filter_map_strip_filter _
  · intro x
    by_cases hx : x = ','
    · subst hx
      decide
    · simp [isCommaWS, hx]
  · intro x hx
    have : ¬x = ',' := by
      intro hc
      subst hc
      simp [isCommaWS] at hx
    simp [this]

theorem onbAllergiesValue_eq (body : List Char) :
    onbAllergiesValue body = usAllergiesValue body := by
  unfold onbAllergiesValue usAllergiesValue
  rw [allergyParts_eq]

theorem onbHouseholdValue_eq (body : List Char) :
    onbHouseholdValue body = usHouseholdValue body := by
  by_cases h1 : body = "1".data
  · subst h1; decide
  by_cases h2 : body = "2".data
  · subst h2; decide
  by_cases h3 : body = "3".data
  · subst h3; decide
  by_cases h4 : body = "4".data
  · subst h4; decide
  by_cases h5 : body = "5".data
  · subst h5; decide
  have hraw : householdMapping.lookup (String.mk body) = none := by
    apply lookup_eq_none_of_notMem
    intro hmem
    simp only [householdMapping, List.map_cons, List.map_nil,
      List.mem_cons, List.not_mem_nil, or_false] at hmem
    rcases hmem with h | h | h | h | h
    · exact h1 (congrArg String.data h)
    · exact h2 (congrArg String.data h)
    · exact h3 (congrArg String.data h)
    · exact h4 (congrArg String.data h)
    · exact h5 (congrArg String.data h)
  have hlow : householdMapping.lookup (String.mk (pyLower body)) = none := by
    apply lookup_eq_none_of_notMem
    intro hmem
    simp only [householdMapping, List.map_cons, List.map_nil,
      List.mem_cons, List.not_mem_nil, or_false] at hmem
    rcases hmem with h | h | h | h | h
    · exact h1 ((pyLower_eq_single (by decide)).mp (congrArg String.data h))
    · exact h2 ((pyLower_eq_single (by decide)).mp (congrArg String.data h))
    · exact h3 ((pyLower_eq_single (by decide)).mp (congrArg String.data h))
    · exact h4 ((pyLower_eq_single (by decide)).mp (congrArg String.data h))
    · exact h5 ((pyLower_eq_single (by decide)).mp (congrArg String.data h))
  unfold onbHouseholdValue usHouseholdValue
  rw [hraw, hlow]
  rfl

/-- C10 counterexample: at the DIET step, body `"chicken"` makes
`OnboardingService` store `diet="both"` while
`UserService.process_onboarding_step` stores `diet="chicken"`, so the two
implementations do not compute the same stored field value. -/
theorem onboarding_impl_divergence :
    ¬OnboardingEquivAt STEP_DIET "chicken".data := by
  unfold OnboardingEquivAt STEP_DIET
  decide

/-- C10 (amended): the two onboarding implementations issue the same
single update (same stored value and same next step) at the ALLERGIES and
HOUSEHOLD steps for every body, at NAME for every non-empty body, at DIET
for every body whose lowering is a mapping key and for the empty body, and
at CUISINE for bodies that are not a numeric menu code; full equivalence
fails at unmapped DIET bodies. -/
theorem onboarding_impl_agreement :
    (∀ body, body ≠ [] → OnboardingEquivAt STEP_NAME body) ∧
    (∀ body, String.mk (pyLower body) ∈
        (["1", "2", "3", "veg", "non-veg", "both"] : List String) ∨
        body = [] →
      OnboardingEquivAt STEP_DIET body) ∧
    (∀ body, cuisineMapping.lookup (String.mk body) = none →
      OnboardingEquivAt STEP_CUISINE body) ∧
    (∀ body, OnboardingEquivAt STEP_ALLERGIES body) ∧
    (∀ body, OnboardingEquivAt STEP_HOUSEHOLD body) := by
  refine ⟨?_, ?_, ?_, ?_, ?_⟩
  · intro body h
    unfold OnboardingEquivAt
    have hval : onbNameValue body = usNameValue body := by
      unfold onbNameValue usNameValue
      by_cases hs : String.mk (pyLower body) = "skip"
      · simp [hs]
      · rw [if_neg hs, if_neg hs, if_neg]
        simp only [List.take_eq_nil_iff]
        push_neg
        exact ⟨by decide, h⟩
    show (if body = [] then none
      else some (updateUserNameAndOnboardingStep (onbNameValue body)
        STEP_DIET)) = some (updateUserNameAndOnboardingStep
          (usNameValue body) 1)
    rw [if_neg h, hval]
    rfl
  · intro body hcase
    rcases hcase with h | hempty
    case inr =>
      rw [hempty]
      unfold OnboardingEquivAt STEP_DIET
      decide
    unfold OnboardingEquivAt
    have hval : onbDietValue body = usDietValue body := by
      unfold onbDietValue usDietValue
      simp only [List.mem_cons, List.not_mem_nil, or_false] at h
      have hne : ∀ s : List Char, s ≠ [] → String.mk (pyLower body) =
          String.mk s → body ≠ [] := by
        intro s hs hmk hb
        rw [hb] at hmk
        exact hs (congrArg String.data hmk).symm
      rcases h with h | h | h | h | h | h
      · rw [h]; rfl
      · rw [h]; rfl
      · rw [h]; rfl
      · have hb := hne "veg".data (by decide) h
        rw [h,
          show dietMapping.lookup "veg" = some "veg" from rfl,
          show usDietMapping.lookup "veg" = none from rfl,
          Option.getD_some, Option.getD_none, if_pos hb]
      · have hb := hne "non-veg".data (by decide) h
        rw [h,
          show dietMapping.lookup "non-veg" = some "non-veg" from rfl,
          show usDietMapping.lookup "non-veg" = none from rfl,
          Option.getD_some, Option.getD_none, if_pos hb]
      · have hb := hne "both".data (by decide) h
        rw [h,
          show dietMapping.lookup "both" = some "both" from rfl,
          show usDietMapping.lookup "both" = none from rfl,
          Option.getD_some, Option.getD_none, if_pos hb]
    show some (updateUserDietAndOnboardingStep (onbDietValue body)
      STEP_CUISINE) = some (updateUserDietAndOnboardingStep
        (usDietValue body) 2)
    rw [hval]
    rfl
  · intro body h
    unfold OnboardingEquivAt
    have hval : onbCuisineValue body = usCuisineValue body := by
      unfold onbCuisineValue usCuisineValue
      rw [h]
    show some (updateUserCuisineAndOnboardingStep (onbCuisineValue body)
      STEP_ALLERGIES) = some (updateUserCuisineAndOnboardingStep
        (usCuisineValue body) 3)
    rw [hval]
    rfl
  · intro body
    unfold OnboardingEquivAt
    show some (updateUserAllergiesAndOnboardingStep (onbAllergiesValue body)
      STEP_HOUSEHOLD) = some (updateUserAllergiesAndOnboardingStep
        (usAllergiesValue body) 4)
    rw [onbAllergiesValue_eq]
    rfl
  · intro body
    unfold OnboardingEquivAt
    show some (updateUserHouseholdAndCompleteOnboarding
      (onbHouseholdValue body)) = some
        (updateUserHouseholdAndCompleteOnboarding (usHouseholdValue body))
    rw [onbHouseholdValue_eq]

/-- C10 witness: the agreement instantiated at concrete bodies for the
NAME, DIET (a mapped body and the empty body) and CUISINE steps. -/
theorem onboarding_impl_agreement_witness :
    OnboardingEquivAt STEP_NAME "Anna".data ∧
    OnboardingEquivAt STEP_DIET "2".data ∧
    OnboardingEquivAt STEP_DIET [] ∧
    OnboardingEquivAt STEP_CUISINE "punjabi food".data :=
  ⟨onboarding_impl_agreement.1 "Anna".data (by decide),
    onboarding_impl_agreement.2.1 "2".data (Or.inl (by decide)),
    onboarding_impl_agreement.2.1 [] (Or.inr rfl),
    onboarding_impl_agreement.2.2.1 "punjabi food".data (by decide)⟩

end Homeyease
